import Mathlib

set_option maxRecDepth 100000

/- The Batteries rational-number operations are `@[irreducible]` purely to
keep `simp`/defeq search from unfolding them; restoring semireducibility
lets ground rational arithmetic evaluate under `decide`.  All proofs are
still checked by the kernel with the standard axioms. -/
set_option allowUnsafeReducibility true
attribute [semireducible] Rat.add Rat.mul Rat.inv Rat.sub Rat.neg Rat.div Rat.ofScientific

/-!
Verification development for the request-shaping layer of the repository:
the context assembler (`services/context_builder.py`, function
`build_smart_context`) and the semantic intent classifier
(`services/semantic_intent_detector.py`, class `SemanticIntentDetector`).

Text is modelled as `List Char` (Python strings are sequences of code
points), scores as `ℚ` (the Python floats involved are small dyadic-like
literals whose comparisons in the claims are far from any rounding
boundary), and Python exceptions as `Option` (`none` = the call raises).
-/

/-! ## Python text primitives -/

/-- Whitespace characters recognised by Python's `str.strip` / regex `\s`
on the ASCII range (the only whitespace appearing in this development). -/
def isPySpace (c : Char) : Bool :=
  [' ', '\t', '\n', '\r', '\x0b', '\x0c'].contains c

/-- Python `str.strip()`: drop whitespace from both ends. -/
def pyStrip (l : List Char) : List Char :=
  (((l.dropWhile isPySpace).reverse).dropWhile isPySpace).reverse

/-- Python `str.lower()` restricted to the alphabet exercised here: ASCII
letters plus the Turkish uppercase letters that have a single-code-point
lowercase form.  (The dotted capital İ, whose Python lowercase is two code
points, never occurs in any input of this development.) -/
def pyLowerChar (c : Char) : Char :=
  if c = 'Ç' then 'ç'
  else if c = 'Ğ' then 'ğ'
  else if c = 'Ö' then 'ö'
  else if c = 'Ş' then 'ş'
  else if c = 'Ü' then 'ü'
  else c.toLower

/-- Python `str.lower()` on a whole string. -/
def pyLower (l : List Char) : List Char := l.map pyLowerChar

/-- Python `s[-n:]` for `n ≤ len(s)`: the last `n` characters. -/
def lastN (n : Nat) (l : List Char) : List Char := l.drop (l.length - n)

/-- Python `'\n'.join(parts)`. -/
def joinNL : List (List Char) → List Char
  | [] => []
  | [x] => x
  | x :: xs => x ++ '\n' :: joinNL xs

/-- Python `pat in s` on strings: substring containment. -/
def listContains (pat : List Char) : List Char → Bool
  | [] => pat.isEmpty
  | c :: rest => pat.isPrefixOf (c :: rest) || listContains pat rest

/-- Core loop of Python `str.replace` for a nonempty needle: replace every
non-overlapping occurrence, scanning left to right.  The `fuel` argument
only makes the recursion structural; every call below passes
`fuel = s.length`, and each step consumes at least one character of `s`,
so the `fuel = 0` clause is never reached. -/
def pyReplaceGo (pat rep : List Char) : Nat → List Char → List Char
  | _, [] => []
  | 0, s => s
  | fuel + 1, c :: rest =>
    if pat.isPrefixOf (c :: rest) then
      rep ++ pyReplaceGo pat rep fuel (rest.drop (pat.length - 1))
    else
      c :: pyReplaceGo pat rep fuel rest

/-- Python `s.replace(pat, rep)`.  An empty needle inserts `rep` into
every gap, matching CPython. -/
def pyReplace (pat rep s : List Char) : List Char :=
  match pat with
  | [] => rep ++ (s.map (fun c => c :: rep)).flatten
  | _ :: _ => pyReplaceGo pat rep s.length s

/-! ## Shared enumerations (`schemas/common.py` is referenced by both
modules; only the member names are needed here). -/

inductive ChatMode where
  | normal | research | creative | code | friend
deriving DecidableEq

inductive IntentLabel where
  | QUESTION | CLARIFICATION_REQUEST | FOLLOW_UP | EXPLAIN | SUMMARIZE
  | CODE_HELP | EMOTIONAL_SUPPORT | SMALL_TALK | COMPARE | RECOMMENDATION
  | CREATIVE | UNKNOWN
deriving DecidableEq

/-! ## Context assembler (`build_smart_context`) -/

/-- `max_rag_chars` selected from `complexity` (lines 61-68 of the
source). -/
def maxRagChars (complexity : ℤ) : Nat :=
  if complexity ≤ 3 then 800
  else if complexity ≤ 6 then 1500
  else if complexity ≤ 8 then 2500
  else 3500

/-- `max_total` selected from `complexity` (lines 105-112 of the
source). -/
def maxTotalChars (complexity : ℤ) : Nat :=
  if complexity ≤ 3 then 3000
  else if complexity ≤ 6 then 5000
  else if complexity ≤ 8 then 8000
  else 12000

def ellipsisDots : List Char := "...".toList

def ilgiliHeading : List Char := "İlgili Bilgiler:".toList

def oncekiHeading : List Char := "Önceki Konuşma:".toList

def soruHeading : List Char := "Soru:".toList

/-- The rendered profile section text (`profile_text`), when the section
is present (lines 48-53). -/
def profileText (profile_context : List Char) : Option (List Char) :=
  if profile_context ≠ [] ∧ pyStrip profile_context ≠ [] then
    some (if (pyStrip profile_context).length > 300
          then (pyStrip profile_context).take 297 ++ ellipsisDots
          else pyStrip profile_context)
  else none

/-- The rendered knowledge section text (`rag_text`), when the section is
present (lines 59-72). -/
def ragText (rag_context : List Char) (complexity : ℤ) : Option (List Char) :=
  if rag_context ≠ [] ∧ pyStrip rag_context ≠ [] then
    some (if (pyStrip rag_context).length > maxRagChars complexity
          then (pyStrip rag_context).take (maxRagChars complexity - 3) ++ ellipsisDots
          else pyStrip rag_context)
  else none

/-- The rendered history section text (`history_text`), when the section
is present (lines 81-88): the stripped history, suffix-truncated to 4000
characters with an `"...\n\n"` marker in front when longer. -/
def historyText (chat_history : List Char) : Option (List Char) :=
  if chat_history ≠ [] ∧ pyStrip chat_history ≠ [] then
    some (if (pyStrip chat_history).length > 4000
          then "...\n\n".toList ++ lastN 4000 (pyStrip chat_history)
          else pyStrip chat_history)
  else none

/-- `context_parts` after the four appending phases (lines 37-98). -/
def contextParts (user_message chat_history rag_context : List Char)
    (complexity : ℤ) (profile_context : List Char) : List (List Char) :=
  (match profileText profile_context with
   | some t => [t, []]
   | none => []) ++
  (match ragText rag_context complexity with
   | some t => [ilgiliHeading, t, []]
   | none => []) ++
  (match historyText chat_history with
   | some t => [oncekiHeading, t, []]
   | none => []) ++
  [soruHeading, pyStrip user_message]

/-- The naive concatenation `full_context = '\n'.join(context_parts)`
(line 101). -/
def fullContextNaive (user_message chat_history rag_context : List Char)
    (complexity : ℤ) (profile_context : List Char) : List Char :=
  joinNL (contextParts user_message chat_history rag_context complexity profile_context)

/-- Cascade step 1 (lines 115-119): if `chat_history` is truthy, rebuild
the context from the parts that neither contain the history heading nor
equal `history_text`.  When the history section was skipped (whitespace-only
`chat_history`), the local `history_text` was never assigned and the
comprehension raises `NameError`; that is the `none` case. -/
def droppedContext (user_message chat_history rag_context : List Char)
    (complexity : ℤ) (profile_context : List Char) : Option (List Char) :=
  if chat_history ≠ [] then
    (historyText chat_history).map (fun ht =>
      joinNL ((contextParts user_message chat_history rag_context complexity
        profile_context).filter
        (fun p => ¬ (listContains oncekiHeading p = true) ∧ p ≠ ht)))
  else some (fullContextNaive user_message chat_history rag_context complexity profile_context)

/-- `shortened_rag = rag_context[:len(rag_context)//2] + "..."` (line 124). -/
def shortenedRag (rag_context : List Char) : List Char :=
  rag_context.take (rag_context.length / 2) ++ ellipsisDots

/-- Both cascade corrections applied unconditionally of the budget (each
still guarded by its own truthiness test, as in lines 116 and 122):
step 1's line filter, then step 2's whole-string replacement of the raw
`rag_context` by its first half plus ellipsis. -/
def cascadedContext (user_message chat_history rag_context : List Char)
    (complexity : ℤ) (profile_context : List Char) : Option (List Char) :=
  (droppedContext user_message chat_history rag_context complexity profile_context).map
    (fun f1 => if rag_context ≠ [] then
        pyReplace rag_context (shortenedRag rag_context) f1
      else f1)

/-- `build_smart_context` (lines 12-130).  Returns
`some (system_prompt, full_context)`; `none` models the `NameError`
raised on line 118 when `chat_history` is truthy but its stripped form is
empty (so `history_text` is unbound) and the context is over budget. -/
def build_smart_context (user_message : List Char) (mode : ChatMode)
    (chat_history rag_context : List Char) (complexity : ℤ)
    (profile_context : List Char) : Option (List Char × List Char) :=
  if (fullContextNaive user_message chat_history rag_context complexity
      profile_context).length > maxTotalChars complexity then
    (droppedContext user_message chat_history rag_context complexity profile_context).map
      (fun f1 =>
        ([], if f1.length > maxTotalChars complexity ∧ rag_context ≠ [] then
            pyReplace rag_context (shortenedRag rag_context) f1
          else f1))
  else
    some ([], fullContextNaive user_message chat_history rag_context complexity profile_context)

/-! ## Intent classifier (`semantic_intent_detector.py`) -/

/-- `IntentResult` (lines 18-23). -/
structure IntentResult where
  intent : IntentLabel
  confidence : ℚ
  reasoning : String
deriving DecidableEq

/-- Python regex `\w` over the alphabet exercised here: ASCII
alphanumerics, underscore, and the Turkish letters occurring in the
pattern table. -/
def isWordChar (c : Char) : Bool :=
  c.isAlphanum || c = '_' ||
    ['ç', 'ğ', 'ı', 'ö', 'ş', 'ü', 'Ç', 'Ğ', 'İ', 'Ö', 'Ş', 'Ü', 'â', 'î', 'û'].contains c

/-- Abstract syntax for the structural patterns the detector uses: the
regex constructs appearing in `_build_intent_patterns` (literals,
alternation, concatenation, `X+` and `X*` over a character class, `\b`,
`^` and `$`). -/
inductive Rx where
  | eps : Rx
  | lit : List Char → Rx
  | plusCls : (Char → Bool) → Rx
  | starCls : (Char → Bool) → Rx
  | seq : Rx → Rx → Rx
  | alt : Rx → Rx → Rx
  | wb : Rx
  | bos : Rx
  | eos : Rx

/-- Length of the maximal run of characters satisfying `p`. -/
def runLen (p : Char → Bool) : List Char → Nat
  | [] => 0
  | c :: rest => if p c then runLen p rest + 1 else 0

/-- Whether a `\b` word boundary holds at position `pos` of `full`. -/
def boundaryAt (full : List Char) (pos : Nat) : Bool :=
  let prevWord := if pos = 0 then false else
    match full.drop (pos - 1) with
    | c :: _ => isWordChar c
    | [] => false
  let nextWord :=
    match full.drop pos with
    | c :: _ => isWordChar c
    | [] => false
  prevWord != nextWord

/-- All positions at which a match of `r` starting at `pos` can end.
Enumerating every end position makes this equivalent to backtracking
regex matching: `re.search` succeeds iff some start position yields a
nonempty end set. -/
def matchEnds : Rx → List Char → Nat → List Nat
  | .eps, _, pos => [pos]
  | .lit s, full, pos => if s.isPrefixOf (full.drop pos) then [pos + s.length] else []
  | .plusCls p, full, pos =>
      (List.range (runLen p (full.drop pos))).map (fun k => pos + k + 1)
  | .starCls p, full, pos =>
      (List.range (runLen p (full.drop pos) + 1)).map (fun k => pos + k)
  | .seq a b, full, pos => (matchEnds a full pos).flatMap (fun e => matchEnds b full e)
  | .alt a b, full, pos => matchEnds a full pos ++ matchEnds b full pos
  | .wb, full, pos => if boundaryAt full pos then [pos] else []
  | .bos, _, pos => if pos = 0 then [pos] else []
  | .eos, full, pos =>
      match full.drop pos with
      | [] => [pos]
      | ['\n'] => [pos]
      | _ => []

/-- Python `re.search(r, text) is not None`. -/
def rxSearch (r : Rx) (text : List Char) : Bool :=
  (List.range (text.length + 1)).any (fun i => !(matchEnds r text i).isEmpty)

/-- Alternation of string literals `(w₁|w₂|…)`. -/
def rxAlts : List String → Rx
  | [] => Rx.lit []
  | w :: rest => rest.foldl (fun r v => Rx.alt r (Rx.lit v.toList)) (Rx.lit w.toList)

/-- `\b(w₁|…|wₙ)\b`. -/
def rxWordAlt (ws : List String) : Rx :=
  Rx.seq Rx.wb (Rx.seq (rxAlts ws) Rx.wb)

/-- `^(w₁|…|wₙ)\b`. -/
def rxBosAlt (ws : List String) : Rx :=
  Rx.seq Rx.bos (Rx.seq (rxAlts ws) Rx.wb)

/-- Per-label entry of the pattern table (keywords, structural patterns,
context tags). -/
structure IntentPattern where
  keywords : List (List Char)
  rxPatterns : List Rx
  context : List (List Char)

/-- Keyword lists are written as string literals and converted. -/
def kws (l : List String) : List (List Char) := l.map String.toList

/-- The pattern table built by `_build_intent_patterns` (lines 80-197),
in dict insertion order. -/
def intent_patterns : List (IntentLabel × IntentPattern) :=
  [ (.QUESTION,
     { keywords := kws ["ne", "nasıl", "neden", "kim", "nerede", "ne zaman",
         "hangi", "kaç", "mi", "mu", "mü", "mı"],
       rxPatterns := [Rx.seq (Rx.lit ['?']) Rx.eos,
         rxWordAlt ["ne", "nasıl", "neden", "kim", "nerede"]],
       context := kws ["asking", "inquiry"] }),
    (.CLARIFICATION_REQUEST,
     { keywords := kws ["ne demek", "anlamadım", "açıklar mısın", "detaylı",
         "daha basit", "yeniden anlatır mısın", "tekrar eder misin"],
       rxPatterns := [rxWordAlt ["ne demek", "anlamadım", "açıkla"]],
       context := kws ["confused", "unclear"] }),
    (.FOLLOW_UP,
     { keywords := kws ["peki", "ee", "o zaman", "bunun üzerine", "ayrıca",
         "ve", "bir de", "başka", "daha"],
       rxPatterns := [rxBosAlt ["peki", "ee", "o zaman"]],
       context := kws ["continuation"] }),
    (.EXPLAIN,
     { keywords := kws ["açıkla", "anlatır mısın", "nedir", "ne demek",
         "detaylı anlat", "örnekle", "göster"],
       rxPatterns := [rxWordAlt ["açıkla", "anlat", "göster"]],
       context := kws ["explain"] }),
    (.SUMMARIZE,
     { keywords := kws ["özet", "kısaca", "özetle", "kısa", "hızlıca",
         "ana fikir", "temel nokta"],
       rxPatterns := [rxWordAlt ["özet", "kısaca", "özetle"]],
       context := kws ["summarize"] }),
    (.CODE_HELP,
     { keywords := kws ["kod", "python", "javascript", "program", "fonksiyon",
         "error", "hata", "debug", "çalışmıyor", "algoritma"],
       rxPatterns := [rxWordAlt ["python", "javascript", "kod", "program"]],
       context := kws ["coding", "programming"] }),
    (.EMOTIONAL_SUPPORT,
     { keywords := kws ["üzgünüm", "moralim bozuk", "mutsuzum", "yalnızım",
         "sinirliyim", "kaygılıyım", "korkuyorum", "stres"],
       rxPatterns := [Rx.seq Rx.wb (Rx.seq
         (rxAlts ["üzgün", "mutsuz", "sinirli", "kaygılı", "korku"])
         (Rx.seq (Rx.starCls isWordChar) Rx.wb))],
       context := kws ["emotional", "support"] }),
    (.SMALL_TALK,
     { keywords := kws ["merhaba", "selam", "nasılsın", "naber", "günaydın",
         "iyi geceler", "teşekkür", "sağol"],
       rxPatterns := [rxBosAlt ["merhaba", "selam", "hi", "hello"]],
       context := kws ["greeting", "casual"] }),
    (.COMPARE,
     { keywords := kws ["fark", "karşılaştır", "hangisi", "mi yoksa", "ya da",
         "arasındaki fark", "daha iyi", "tercih", "ve", "ile",
         "farklı", "benzer", "aynı mı"],
       rxPatterns := [rxWordAlt ["karşılaştır", "fark", "hangisi"],
         Rx.seq Rx.wb (Rx.seq (Rx.plusCls isWordChar) (Rx.seq (Rx.plusCls isPySpace)
           (Rx.seq (rxAlts ["mi", "mu", "mü", "mı"]) (Rx.seq (Rx.plusCls isPySpace)
             (Rx.seq (Rx.lit "yoksa".toList) (Rx.seq (Rx.plusCls isPySpace)
               (Rx.seq (Rx.plusCls isWordChar) Rx.wb))))))),
         Rx.seq Rx.wb (Rx.seq (Rx.plusCls isWordChar) (Rx.seq (Rx.plusCls isPySpace)
           (Rx.seq (rxAlts ["ile", "ve"]) (Rx.seq (Rx.plusCls isPySpace)
             (Rx.seq (Rx.plusCls isWordChar) Rx.wb)))))],
       context := kws ["comparison"] }),
    (.RECOMMENDATION,
     { keywords := kws ["öner", "tavsiye", "ne yapmalıyım", "hangi", "en iyi",
         "önerin var mı", "seçmek", "hangisini", "önerirsin",
         "yol göster", "rehberlik", "yardımcı ol"],
       rxPatterns := [rxWordAlt ["öner", "tavsiye", "ne yapmalı", "hangisi"],
         Rx.seq Rx.wb (Rx.seq (rxAlts ["hangi", "ne"]) (Rx.seq (Rx.plusCls isPySpace)
           (Rx.seq (Rx.plusCls isWordChar) (Rx.seq (Rx.plusCls isPySpace)
             (Rx.seq (rxAlts ["öğren", "seç", "al"]) Rx.wb)))))],
       context := kws ["recommendation"] }) ]

/-- The continuity loop of `_score_intent` (lines 229-234): for each of
the last 3 history turns and each context tag contained in the
lower-cased turn, add 0.1. -/
def continuityScore (tags : List (List Char)) (history : List (List Char)) : ℚ :=
  (history.drop (history.length - 3)).foldl
    (fun acc prev => tags.foldl
      (fun a t => if listContains t (pyLower prev) then a + 1/10 else a) acc)
    0

/-- The `(label, mode) → bonus` table defined inside `_score_intent`
(lines 237-241).  It is defined and then never consulted, exactly as in
the source. -/
def mode_bonuses : List ((IntentLabel × ChatMode) × ℚ) :=
  [((.CODE_HELP, .code), 1/5),
   ((.CREATIVE, .creative), 1/5),
   ((.EMOTIONAL_SUPPORT, .friend), 1/5)]

/-- `_score_intent` (lines 199-246): keyword signal, pattern signal,
continuity signal, clamped above by 1.  The `mode` parameter is received
but, like `mode_bonuses`, never used. -/
def score_intent (text : List Char) (pats : IntentPattern) (mode : ChatMode)
    (history : List (List Char)) : ℚ :=
  let keyword_score : Nat := pats.keywords.countP (fun k => listContains k text)
  let s1 : ℚ := if keyword_score > 0 then min (1/2) ((keyword_score : ℚ) * (3/20)) else 0
  let pattern_score : Nat := pats.rxPatterns.countP (fun r => rxSearch r text)
  let s2 : ℚ := if pattern_score > 0 then min (2/5) ((pattern_score : ℚ) * (1/5)) else 0
  min 1 (s1 + s2 + continuityScore pats.context history)

/-- The per-label explanation table of `_explain_intent` (lines 250-258);
`none` for the labels absent from the dict. -/
def explanations : IntentLabel → Option String
  | .QUESTION => some "Soru formatı tespit edildi"
  | .CLARIFICATION_REQUEST => some "Açıklama talebi"
  | .FOLLOW_UP => some "Önceki konuya devam"
  | .EXPLAIN => some "Detaylı açıklama isteği"
  | .CODE_HELP => some "Kod/programlama sorusu"
  | .EMOTIONAL_SUPPORT => some "Duygusal destek gereksinimi"
  | .SMALL_TALK => some "Sohbet/selamlama"
  | _ => none

/-- `_explain_intent` (lines 248-260): dict `.get` with default. -/
def explain_intent (intent : IntentLabel) : String :=
  (explanations intent).getD "Unknown reasoning"

/-- Python `max(scores, key=scores.get)` over the scores dict, whose
iteration order is the table's insertion order: the first element whose
score is not exceeded strictly later wins. -/
def maxByFirst : List (IntentLabel × ℚ) → IntentLabel × ℚ
  | [] => (.UNKNOWN, 0)
  | x :: xs => xs.foldl (fun b y => if y.2 > b.2 then y else b) x

/-- The per-label scores computed by `detect_intent` (lines 55-58). -/
def scoresList (text : List Char) (mode : ChatMode)
    (history : List (List Char)) : List (IntentLabel × ℚ) :=
  intent_patterns.map (fun lp => (lp.1, score_intent text lp.2 mode history))

/-- The pair `(best_intent, best_score)` computed on lines 61-62:
`text = message.strip().lower()` followed by the first-wins maximum over
the scores dict. -/
def bestCandidate (message : List Char) (mode : ChatMode)
    (history : List (List Char)) : IntentLabel × ℚ :=
  maxByFirst (scoresList (pyLower (pyStrip message)) mode history)

/-- `detect_intent` (lines 35-78). -/
def detect_intent (message : List Char) (mode : ChatMode)
    (history : List (List Char)) : IntentResult :=
  if (bestCandidate message mode history).2 < 3/10 then
    ⟨.UNKNOWN, (bestCandidate message mode history).2, "No clear intent detected"⟩
  else
    ⟨(bestCandidate message mode history).1, (bestCandidate message mode history).2,
      explain_intent (bestCandidate message mode history).1⟩

/-- The length of the full context returned by `build_smart_context`
(0 when the call raises). -/
def builtFullLen (user_message : List Char) (mode : ChatMode)
    (chat_history rag_context : List Char) (complexity : ℤ)
    (profile_context : List Char) : Nat :=
  (((build_smart_context user_message mode chat_history rag_context complexity
    profile_context).map (fun r => r.2.length)).getD 0)

/-- Modelled from the spec: the length of the context after the two
cascade corrections exactly as the spec words them — "dropping the history
section entirely, then replacing the knowledge section with its first half
plus an ellipsis marker". -/
def specDropHalveLen (user_message rag_context : List Char) (complexity : ℤ)
    (profile_context : List Char) : Nat :=
  (joinNL
    ((match profileText profile_context with
      | some t => [t, []]
      | none => []) ++
     (match ragText rag_context complexity with
      | some t => [ilgiliHeading, t.take (t.length / 2) ++ ellipsisDots, []]
      | none => []) ++
     [soruHeading, pyStrip user_message])).length

/-- The context-tag list of a label in the pattern table. -/
def tagsOf (l : IntentLabel) : List (List Char) :=
  ((intent_patterns.find? (fun lp => decide (lp.1 = l))).map (fun lp => lp.2.context)).getD []

/-- Modelled from the spec: the continuity signal as the spec words it —
0.10 for each of the last 3 history turns whose lower-cased text contains
at least one of the label's context tags. -/
def claimedContinuity (tags : List (List Char)) (history : List (List Char)) : ℚ :=
  ((history.drop (history.length - 3)).countP
    (fun m => tags.any (fun t => listContains t (pyLower m))) : ℚ) * (1/10)

/-! ## Helper lemmas -/

lemma dropWhile_replicate_of_neg (p : Char → Bool) (c : Char) (h : p c = false) (n : Nat) :
    (List.replicate n c).dropWhile p = List.replicate n c := by
  cases n with
  | zero => rfl
  | succ m => simp [List.replicate_succ, List.dropWhile_cons, h]

lemma pyStrip_replicate (c : Char) (n : Nat) (h : isPySpace c = false) :
    pyStrip (List.replicate n c) = List.replicate n c := by
  unfold pyStrip
  rw [dropWhile_replicate_of_neg _ _ h, List.reverse_replicate,
    dropWhile_replicate_of_neg _ _ h, List.reverse_replicate]

lemma pyStrip_tab_replicate (n : Nat) :
    pyStrip ('\t' :: List.replicate n 'a') = List.replicate n 'a' := by
  have h1 : ('\t' :: List.replicate n 'a').dropWhile isPySpace = List.replicate n 'a' := by
    rw [List.dropWhile_cons]
    simp only [show isPySpace '\t' = true from by decide, if_true]
    exact dropWhile_replicate_of_neg _ _ (by decide) n
  unfold pyStrip
  rw [h1, List.reverse_replicate, dropWhile_replicate_of_neg _ _ (by decide) n,
    List.reverse_replicate]

lemma pyStrip_replicate_append_space (n : Nat) :
    pyStrip (List.replicate (n + 1) 'a' ++ [' ']) = List.replicate (n + 1) 'a' := by
  have h1 : (List.replicate (n + 1) 'a' ++ [' ']).dropWhile isPySpace =
      List.replicate (n + 1) 'a' ++ [' '] := by
    rw [List.replicate_succ, List.cons_append, List.dropWhile_cons]
    simp [show isPySpace 'a' = false from by decide]
  unfold pyStrip
  rw [h1, List.reverse_append, List.reverse_replicate]
  show (((' ' :: []) ++ List.replicate (n + 1) 'a').dropWhile isPySpace).reverse = _
  rw [List.cons_append, List.dropWhile_cons]
  simp only [show isPySpace ' ' = true from by decide, if_true, List.nil_append]
  rw [dropWhile_replicate_of_neg _ _ (by decide), List.reverse_replicate]

lemma pyReplaceGo_of_not_mem (c : Char) (ps rep : List Char) :
    ∀ (fuel : Nat) (s : List Char), c ∉ s → pyReplaceGo (c :: ps) rep fuel s = s := by
  intro fuel
  induction fuel with
  | zero => intro s _; cases s <;> rfl
  | succ m ih =>
    intro s h
    cases s with
    | nil => rfl
    | cons d rest =>
      have hcd : (c == d) = false := by
        simp only [beq_eq_false_iff_ne]
        intro he
        exact h (he ▸ List.mem_cons_self d rest)
      have hnp : (c :: ps).isPrefixOf (d :: rest) = false := by
        simp [List.isPrefixOf, hcd]
      show (if (c :: ps).isPrefixOf (d :: rest) then _ else _) = _
      rw [hnp]
      simp only [Bool.false_eq_true, if_false]
      have : c ∉ rest := fun hm => h (List.mem_cons_of_mem d hm)
      rw [ih rest this]

lemma pyReplace_of_not_mem (c : Char) (ps rep s : List Char) (h : c ∉ s) :
    pyReplace (c :: ps) rep s = s :=
  pyReplaceGo_of_not_mem c ps rep s.length s h

lemma historyText_long (chat_history : List Char)
    (h : 4000 < (pyStrip chat_history).length) :
    historyText chat_history =
      some ("...\n\n".toList ++ lastN 4000 (pyStrip chat_history)) := by
  have h1 : pyStrip chat_history ≠ [] := by
    intro he
    rw [he] at h
    simp at h
  have h0 : chat_history ≠ [] := by
    intro he
    subst he
    rw [show pyStrip ([] : List Char) = [] from rfl] at h
    simp at h
  unfold historyText
  rw [if_pos ⟨h0, h1⟩, if_pos h]

lemma foldlMax_ge_init (xs : List (IntentLabel × ℚ)) :
    ∀ x : IntentLabel × ℚ,
      x.2 ≤ (xs.foldl (fun b y => if y.2 > b.2 then y else b) x).2 := by
  induction xs with
  | nil => intro x; exact le_refl _
  | cons y ys ih =>
    intro x
    show x.2 ≤ ((ys.foldl _ (if y.2 > x.2 then y else x)).2)
    refine le_trans ?_ (ih (if y.2 > x.2 then y else x))
    by_cases h : y.2 > x.2
    · rw [if_pos h]; exact le_of_lt h
    · rw [if_neg h]

lemma foldlMax_split (xs : List (IntentLabel × ℚ)) :
    ∀ x : IntentLabel × ℚ,
      ∃ pre post,
        x :: xs = pre ++ (xs.foldl (fun b y => if y.2 > b.2 then y else b) x) :: post ∧
        (∀ q ∈ pre, q.2 < (xs.foldl (fun b y => if y.2 > b.2 then y else b) x).2) ∧
        (∀ q ∈ post, q.2 ≤ (xs.foldl (fun b y => if y.2 > b.2 then y else b) x).2) := by
  induction xs with
  | nil =>
    intro x
    exact ⟨[], [], rfl, by simp, by simp⟩
  | cons y ys ih =>
    intro x
    simp only [List.foldl_cons]
    by_cases h : y.2 > x.2
    · rw [if_pos h]
      obtain ⟨pre, post, heq, hpre, hpost⟩ := ih y
      refine ⟨x :: pre, post, ?_, ?_, hpost⟩
      · rw [List.cons_append]
        exact congrArg (x :: ·) heq
      · intro q hq
        rcases List.mem_cons.mp hq with hqx | hqp
        · subst hqx
          exact lt_of_lt_of_le h (foldlMax_ge_init ys y)
        · exact hpre q hqp
    · rw [if_neg h]
      obtain ⟨pre, post, heq, hpre, hpost⟩ := ih x
      cases pre with
      | nil =>
        simp only [List.nil_append] at heq
        have hx : x = ys.foldl (fun b y => if y.2 > b.2 then y else b) x :=
          ((List.cons.injEq _ _ _ _).mp heq).1
        have hys : ys = post := ((List.cons.injEq _ _ _ _).mp heq).2
        refine ⟨[], y :: ys, by rw [List.nil_append, ← hx], by simp, ?_⟩
        intro q hq
        rcases List.mem_cons.mp hq with hqy | hqys
        · subst hqy
          rw [← hx]
          exact le_of_not_lt h
        · exact hpost q (hys ▸ hqys)
      | cons a pre' =>
        rw [List.cons_append] at heq
        have ha : a = x := (((List.cons.injEq _ _ _ _).mp heq).1).symm
        have hys : ys = pre' ++ ys.foldl (fun b y => if y.2 > b.2 then y else b) x :: post :=
          ((List.cons.injEq _ _ _ _).mp heq).2
        have hxlt : x.2 < (ys.foldl (fun b y => if y.2 > b.2 then y else b) x).2 := by
          have := hpre a (List.mem_cons_self a pre')
          rw [ha] at this
          exact this
        refine ⟨x :: y :: pre', post, ?_, ?_, hpost⟩
        · rw [List.cons_append, List.cons_append]
          exact congrArg (x :: ·) (congrArg (y :: ·) hys)
        · intro q hq
          rcases List.mem_cons.mp hq with hqx | hq2
          · subst hqx; exact hxlt
          · rcases List.mem_cons.mp hq2 with hqy | hqp
            · subst hqy; exact lt_of_le_of_lt (le_of_not_lt h) hxlt
            · exact hpre q (List.mem_cons_of_mem a hqp)

lemma maxByFirst_split (l : List (IntentLabel × ℚ)) (hne : l ≠ []) :
    ∃ pre post,
      l = pre ++ maxByFirst l :: post ∧
      (∀ q ∈ pre, q.2 < (maxByFirst l).2) ∧
      (∀ q ∈ post, q.2 ≤ (maxByFirst l).2) := by
  cases l with
  | nil => exact absurd rfl hne
  | cons x xs => exact foldlMax_split xs x

lemma tagFold_eq (m : List Char) (tags : List (List Char)) :
    ∀ acc : ℚ,
      tags.foldl (fun a t => if listContains t (pyLower m) then a + 1/10 else a) acc =
        acc + (tags.countP (fun t => listContains t (pyLower m)) : ℚ) * (1/10) := by
  induction tags with
  | nil => intro acc; simp
  | cons t ts ih =>
    intro acc
    rw [List.foldl_cons, List.countP_cons]
    by_cases h : listContains t (pyLower m)
    · rw [if_pos h, ih (acc + 1/10)]
      simp only [h, if_true]
      push_cast
      ring
    · rw [if_neg h, ih acc]
      simp only [h, Bool.false_eq_true, if_false, Nat.add_zero]

lemma turnsFold_eq (tags : List (List Char)) (turns : List (List Char)) :
    ∀ acc : ℚ,
      turns.foldl
        (fun acc prev => tags.foldl
          (fun a t => if listContains t (pyLower prev) then a + 1/10 else a) acc) acc =
        acc + ((turns.map
          (fun m => (tags.countP (fun t => listContains t (pyLower m)) : ℚ))).sum) * (1/10) := by
  induction turns with
  | nil => intro acc; simp
  | cons m ms ih =>
    intro acc
    rw [List.foldl_cons, tagFold_eq, ih, List.map_cons, List.sum_cons]
    ring

/-- The continuity loop adds 0.1 per (turn, tag) pair: its value is the
sum over the last 3 turns of the number of context tags each contains,
times 1/10. -/
lemma continuityScore_eq (tags history : List (List Char)) :
    continuityScore tags history =
      ((history.drop (history.length - 3)).map
        (fun m => (tags.countP (fun t => listContains t (pyLower m)) : ℚ))).sum * (1/10) := by
  unfold continuityScore
  rw [turnsFold_eq]
  ring

lemma continuityScore_nonneg (tags history : List (List Char)) :
    0 ≤ continuityScore tags history := by
  rw [continuityScore_eq]
  apply mul_nonneg _ (by norm_num)
  apply List.sum_nonneg
  intro x hx
  obtain ⟨m, _, rfl⟩ := List.mem_map.mp hx
  positivity

lemma continuityScore_le (tags history : List (List Char)) :
    continuityScore tags history ≤ (3 * tags.length : ℚ) * (1/10) := by
  rw [continuityScore_eq]
  apply mul_le_mul_of_nonneg_right _ (by norm_num)
  have hlen : ((history.drop (history.length - 3)).map
      (fun m => (tags.countP (fun t => listContains t (pyLower m)) : ℚ))).length ≤ 3 := by
    rw [List.length_map, List.length_drop]
    omega
  calc ((history.drop (history.length - 3)).map
      (fun m => (tags.countP (fun t => listContains t (pyLower m)) : ℚ))).sum
      ≤ ((history.drop (history.length - 3)).map
        (fun m => (tags.countP (fun t => listContains t (pyLower m)) : ℚ))).length •
          (tags.length : ℚ) := by
        apply List.sum_le_card_nsmul
        intro x hx
        obtain ⟨m, _, rfl⟩ := List.mem_map.mp hx
        exact_mod_cast List.countP_le_length _
    _ ≤ (3 * tags.length : ℚ) := by
        rw [nsmul_eq_mul]
        have : (0:ℚ) ≤ (tags.length : ℚ) := by positivity
        calc (((history.drop (history.length - 3)).map
            (fun m => (tags.countP (fun t => listContains t (pyLower m)) : ℚ))).length : ℚ) *
              (tags.length : ℚ)
            ≤ 3 * (tags.length : ℚ) := by
              apply mul_le_mul_of_nonneg_right _ this
              exact_mod_cast hlen
          _ = (3 * tags.length : ℚ) := by ring

lemma score_intent_nonneg (text : List Char) (pats : IntentPattern) (mode : ChatMode)
    (history : List (List Char)) : 0 ≤ score_intent text pats mode history := by
  unfold score_intent
  refine le_min (by norm_num) ?_
  refine add_nonneg (add_nonneg ?_ ?_) (continuityScore_nonneg _ _)
  · split
    · exact le_min (by norm_num) (by positivity)
    · exact le_refl 0
  · split
    · exact le_min (by norm_num) (by positivity)
    · exact le_refl 0

lemma score_intent_le_one (text : List Char) (pats : IntentPattern) (mode : ChatMode)
    (history : List (List Char)) : score_intent text pats mode history ≤ 1 := by
  unfold score_intent
  exact min_le_left _ _

lemma scoresList_ne_nil (text : List Char) (mode : ChatMode)
    (history : List (List Char)) : scoresList text mode history ≠ [] := by
  simp [scoresList, intent_patterns]

lemma bestCandidate_mem (message : List Char) (mode : ChatMode)
    (history : List (List Char)) :
    bestCandidate message mode history ∈
      scoresList (pyLower (pyStrip message)) mode history := by
  obtain ⟨pre, post, heq, _, _⟩ :=
    maxByFirst_split (scoresList (pyLower (pyStrip message)) mode history)
      (scoresList_ne_nil _ _ _)
  have hmem : maxByFirst (scoresList (pyLower (pyStrip message)) mode history) ∈
      pre ++ maxByFirst (scoresList (pyLower (pyStrip message)) mode history) :: post :=
    List.mem_append.mpr (Or.inr (List.mem_cons_self _ _))
  rw [← heq] at hmem
  exact hmem

lemma bestCandidate_bounds (message : List Char) (mode : ChatMode)
    (history : List (List Char)) :
    0 ≤ (bestCandidate message mode history).2 ∧
      (bestCandidate message mode history).2 ≤ 1 := by
  obtain ⟨lp, _, heq⟩ := List.mem_map.mp (bestCandidate_mem message mode history)
  have h2 : (bestCandidate message mode history).2 =
      score_intent (pyLower (pyStrip message)) lp.2 mode history := by
    rw [← heq]
  rw [h2]
  exact ⟨score_intent_nonneg _ _ _ _, score_intent_le_one _ _ _ _⟩

/-! ## Claim theorems: intent classifier -/

/-- C2 counterexample: the continuity signal does not add 0.10 per history
turn containing at least one context tag.  For the QUESTION label (tags
`asking`, `inquiry`) a single turn containing both tags adds 0.20, and three
such turns add 0.60 > 0.30, so the claimed per-turn accounting and the
claimed 0.30 bound are both false. -/
theorem C2_counterexample :
    continuityScore (tagsOf .QUESTION) ["asking inquiry".toList] = 1/5 ∧
    claimedContinuity (tagsOf .QUESTION) ["asking inquiry".toList] = 1/10 ∧
    ¬ ((1:ℚ)/5 = 1/10) ∧
    continuityScore (tagsOf .QUESTION)
      ["asking inquiry".toList, "asking inquiry".toList, "asking inquiry".toList] = 3/5 ∧
    ¬ (continuityScore (tagsOf .QUESTION)
      ["asking inquiry".toList, "asking inquiry".toList, "asking inquiry".toList] ≤ 3/10) :=
  ⟨by decide, by decide, by decide, by decide, by decide⟩

/-- C2 (amended): the continuity signal contributes exactly +0.10 for each
pair of a history turn (among the last 3) and a context tag of the label
contained in that lower-cased turn; consequently it is bounded by
0.10 × 3 × (number of the label's context tags), not by 0.30. -/
theorem C2_continuity_per_pair (tags history : List (List Char)) :
    continuityScore tags history =
      ((history.drop (history.length - 3)).map
        (fun m => ((tags.countP (fun t => listContains t (pyLower m))) : ℚ))).sum * (1/10) ∧
    continuityScore tags history ≤ (3 * tags.length : ℚ) * (1/10) :=
  ⟨continuityScore_eq tags history, continuityScore_le tags history⟩

/-- C3: `detect_intent` returns the same result for every chat mode — the
`mode_bonuses` table inside the scoring routine is never consulted, so the
result is independent of the `mode` argument. -/
theorem C3_mode_independent (message : List Char) (history : List (List Char))
    (m1 m2 : ChatMode) :
    detect_intent message m1 history = detect_intent message m2 history := rfl

/-- C5 counterexample: when no intent reaches the 0.30 threshold the
result's reasoning string is "No clear intent detected" (capital N), not
the "no clear intent detected" the claim quotes. -/
theorem C5_counterexample :
    (bestCandidate ['x'] .normal []).2 < 3/10 ∧
    detect_intent ['x'] .normal [] ≠
      ⟨.UNKNOWN, (bestCandidate ['x'] .normal []).2, "no clear intent detected"⟩ :=
  ⟨by decide, by decide⟩

/-- C5 (amended): `detect_intent` picks the label of maximal score, ties
broken by declaration order of the pattern table (every earlier entry
scores strictly lower, every later entry scores no higher); if the winning
score is below 0.30 the result is `(UNKNOWN, score, "No clear intent
detected")`, and otherwise it is the winning label with its score and that
label's fixed explanation string. -/
theorem C5_selection (message : List Char) (mode : ChatMode)
    (history : List (List Char)) :
    (∃ pre post,
      scoresList (pyLower (pyStrip message)) mode history =
        pre ++ bestCandidate message mode history :: post ∧
      (∀ q ∈ pre, q.2 < (bestCandidate message mode history).2) ∧
      (∀ q ∈ post, q.2 ≤ (bestCandidate message mode history).2)) ∧
    ((bestCandidate message mode history).2 < 3/10 →
      detect_intent message mode history =
        ⟨.UNKNOWN, (bestCandidate message mode history).2, "No clear intent detected"⟩) ∧
    (¬ (bestCandidate message mode history).2 < 3/10 →
      detect_intent message mode history =
        ⟨(bestCandidate message mode history).1, (bestCandidate message mode history).2,
          explain_intent (bestCandidate message mode history).1⟩) := by
  refine ⟨maxByFirst_split _ (scoresList_ne_nil _ _ _), ?_, ?_⟩
  · intro h
    unfold detect_intent
    rw [if_pos h]
  · intro h
    unfold detect_intent
    rw [if_neg h]

/-- C5 witness: on "merhaba" the winning candidate clears the threshold and
the result is exactly the winning label, score, and explanation. -/
theorem C5_selection_witness :
    detect_intent "merhaba".toList .normal [] =
      ⟨(bestCandidate "merhaba".toList .normal []).1,
        (bestCandidate "merhaba".toList .normal []).2,
        explain_intent (bestCandidate "merhaba".toList .normal []).1⟩ :=
  (C5_selection "merhaba".toList .normal []).2.2 (by decide)

/-- C8 counterexample: on the empty message the reasoning string is
"No clear intent detected" (capital N), not the "no clear intent detected"
tuple the claim quotes. -/
theorem C8_counterexample :
    detect_intent [] .normal [] ≠ ⟨.UNKNOWN, 0, "no clear intent detected"⟩ := by
  decide

/-- C8 (amended): for every mode, the empty message and every
whitespace-only message with empty history yield
`(UNKNOWN, 0, "No clear intent detected")` rather than failing. -/
theorem C8_whitespace_unknown (mode : ChatMode) (message : List Char)
    (h : ∀ c ∈ message, isPySpace c = true) :
    detect_intent message mode [] = ⟨.UNKNOWN, 0, "No clear intent detected"⟩ := by
  have hs : pyStrip message = [] := by
    unfold pyStrip
    have h1 : message.dropWhile isPySpace = [] := List.dropWhile_eq_nil_iff.mpr h
    rw [h1]
    rfl
  have hstep : detect_intent message mode [] = detect_intent [] mode [] := by
    unfold detect_intent bestCandidate
    rw [hs]
    rfl
  rw [hstep]
  cases mode <;> decide

/-- C8 witness: the concrete whitespace-only message `" \t"`. -/
theorem C8_whitespace_unknown_witness :
    (∀ c ∈ [' ', '\t'], isPySpace c = true) ∧
    detect_intent [' ', '\t'] .normal [] =
      ⟨.UNKNOWN, 0, "No clear intent detected"⟩ :=
  ⟨by decide, C8_whitespace_unknown .normal [' ', '\t'] (by decide)⟩

/-- C9: the confidence of every result is in [0, 1], and confidence 0
forces the UNKNOWN label. -/
theorem C9_confidence_invariant (message : List Char) (mode : ChatMode)
    (history : List (List Char)) :
    0 ≤ (detect_intent message mode history).confidence ∧
    (detect_intent message mode history).confidence ≤ 1 ∧
    ((detect_intent message mode history).confidence = 0 →
      (detect_intent message mode history).intent = .UNKNOWN) := by
  have hb := bestCandidate_bounds message mode history
  have hconf : (detect_intent message mode history).confidence =
      (bestCandidate message mode history).2 := by
    unfold detect_intent
    split <;> rfl
  refine ⟨by rw [hconf]; exact hb.1, by rw [hconf]; exact hb.2, ?_⟩
  intro h0
  rw [hconf] at h0
  unfold detect_intent
  split
  · rfl
  · rename_i hge
    exact absurd (by rw [h0]; norm_num) hge

/-- C9 witness: the invariant instantiated at a concrete zero-score
message, with the implication discharged. -/
theorem C9_confidence_invariant_witness :
    (detect_intent "zzz".toList .normal []).intent = .UNKNOWN :=
  (C9_confidence_invariant "zzz".toList .normal []).2.2 (by decide)

/-- C10: whenever the selected label is SUMMARIZE, COMPARE or
RECOMMENDATION, the reasoning is the fallback "Unknown reasoning" — those
three labels are absent from the explanation table. -/
theorem C10_missing_explanations (message : List Char) (mode : ChatMode)
    (history : List (List Char))
    (h : (detect_intent message mode history).intent = .SUMMARIZE ∨
         (detect_intent message mode history).intent = .COMPARE ∨
         (detect_intent message mode history).intent = .RECOMMENDATION) :
    (detect_intent message mode history).reasoning = "Unknown reasoning" ∧
    explanations .SUMMARIZE = none ∧ explanations .COMPARE = none ∧
    explanations .RECOMMENDATION = none := by
  refine ⟨?_, rfl, rfl, rfl⟩
  by_cases hlt : (bestCandidate message mode history).2 < 3/10
  · unfold detect_intent at h
    rw [if_pos hlt] at h
    simp at h
  · unfold detect_intent at h ⊢
    rw [if_neg hlt] at h ⊢
    show explain_intent (bestCandidate message mode history).1 = "Unknown reasoning"
    rcases h with h | h | h
    · rw [show (bestCandidate message mode history).1 = IntentLabel.SUMMARIZE from h]
      rfl
    · rw [show (bestCandidate message mode history).1 = IntentLabel.COMPARE from h]
      rfl
    · rw [show (bestCandidate message mode history).1 = IntentLabel.RECOMMENDATION from h]
      rfl

/-- C10 witness: "özetle" selects SUMMARIZE and gets the fallback
reasoning. -/
theorem C10_missing_explanations_witness :
    (detect_intent "özetle".toList .normal []).reasoning = "Unknown reasoning" ∧
    explanations .SUMMARIZE = none ∧ explanations .COMPARE = none ∧
    explanations .RECOMMENDATION = none :=
  C10_missing_explanations "özetle".toList .normal [] (Or.inl (by decide))

/-! ## Claim theorems: context assembler -/

lemma ilgili_len : ilgiliHeading.length = 16 := by decide

lemma soru_len : soruHeading.length = 5 := by decide

lemma tab_not_ilgili : '\t' ∉ ilgiliHeading := by decide

lemma tab_not_soru : '\t' ∉ soruHeading := by decide

lemma ragText_c1eval :
    ragText ('\t' :: List.replicate 790 'a') 1 = some (List.replicate 790 'a') := by
  unfold ragText
  rw [pyStrip_tab_replicate]
  rw [if_pos ⟨List.cons_ne_nil _ _, by simp⟩]
  rw [if_neg (by simp [maxRagChars, List.length_replicate])]

lemma contextParts_c1 :
    contextParts (List.replicate 2300 'm') [] ('\t' :: List.replicate 790 'a') 1 [] =
      [ilgiliHeading, List.replicate 790 'a', [], soruHeading, List.replicate 2300 'm'] := by
  unfold contextParts
  rw [ragText_c1eval, pyStrip_replicate 'm' 2300 (by decide)]
  rfl

lemma full_c1_eq :
    fullContextNaive (List.replicate 2300 'm') [] ('\t' :: List.replicate 790 'a') 1 [] =
      ilgiliHeading ++ '\n' :: (List.replicate 790 'a' ++ '\n' ::
        ([] ++ '\n' :: (soruHeading ++ '\n' :: List.replicate 2300 'm'))) := by
  unfold fullContextNaive
  rw [contextParts_c1]
  rfl

lemma full_c1_len :
    (fullContextNaive (List.replicate 2300 'm') [] ('\t' :: List.replicate 790 'a') 1 []).length =
      3115 := by
  rw [full_c1_eq]
  simp only [List.length_append, List.length_cons, List.length_replicate, List.length_nil,
    ilgili_len, soru_len]

lemma tab_not_mem_full_c1 :
    '\t' ∉ fullContextNaive (List.replicate 2300 'm') [] ('\t' :: List.replicate 790 'a') 1 [] := by
  rw [full_c1_eq]
  intro hm
  rcases List.mem_append.mp hm with h | h
  · exact tab_not_ilgili h
  · rcases List.mem_cons.mp h with h | h
    · exact absurd h (by decide)
    · rcases List.mem_append.mp h with h | h
      · exact absurd (List.eq_of_mem_replicate h) (by decide)
      · rcases List.mem_cons.mp h with h | h
        · exact absurd h (by decide)
        · rw [List.nil_append] at h
          rcases List.mem_cons.mp h with h | h
          · exact absurd h (by decide)
          · rcases List.mem_append.mp h with h | h
            · exact tab_not_soru h
            · rcases List.mem_cons.mp h with h | h
              · exact absurd h (by decide)
              · exact absurd (List.eq_of_mem_replicate h) (by decide)

lemma build_c1 :
    build_smart_context (List.replicate 2300 'm') .normal [] ('\t' :: List.replicate 790 'a') 1 [] =
      some ([], fullContextNaive (List.replicate 2300 'm') []
        ('\t' :: List.replicate 790 'a') 1 []) := by
  have hgt : (fullContextNaive (List.replicate 2300 'm') []
      ('\t' :: List.replicate 790 'a') 1 []).length > maxTotalChars 1 := by
    rw [full_c1_len]
    decide
  unfold build_smart_context
  rw [if_pos hgt]
  rw [show droppedContext (List.replicate 2300 'm') [] ('\t' :: List.replicate 790 'a') 1 [] =
      some (fullContextNaive (List.replicate 2300 'm') []
        ('\t' :: List.replicate 790 'a') 1 []) from rfl]
  simp only [Option.map_some']
  rw [if_pos ⟨hgt, List.cons_ne_nil _ _⟩]
  rw [pyReplace_of_not_mem '\t' (List.replicate 790 'a') _ _ tab_not_mem_full_c1]

lemma builtLen_c1 :
    builtFullLen (List.replicate 2300 'm') .normal [] ('\t' :: List.replicate 790 'a') 1 [] =
      3115 := by
  unfold builtFullLen
  rw [build_c1]
  simp only [Option.map_some', Option.getD_some]
  exact full_c1_len

lemma specHalve_c1 :
    specDropHalveLen (List.replicate 2300 'm') ('\t' :: List.replicate 790 'a') 1 [] = 2723 := by
  unfold specDropHalveLen
  rw [ragText_c1eval, pyStrip_replicate 'm' 2300 (by decide)]
  show (joinNL [ilgiliHeading,
      (List.replicate 790 'a').take ((List.replicate 790 'a').length / 2) ++ ellipsisDots, [],
      soruHeading, List.replicate 2300 'm']).length = 2723
  rw [List.length_replicate]
  show (ilgiliHeading ++ '\n' :: (((List.replicate 790 'a').take 395 ++ ellipsisDots) ++ '\n' ::
      ([] ++ '\n' :: (soruHeading ++ '\n' :: List.replicate 2300 'm')))).length = 2723
  rw [List.take_replicate]
  simp only [List.length_append, List.length_cons, List.length_replicate, List.length_nil,
    ilgili_len, soru_len, show ellipsisDots.length = 3 from by decide]
  rfl

/-- C1 counterexample: with complexity 1, an empty history, a 2300-char
question and the knowledge input `"\t" + 790 × "a"`, the spec's two
corrections (drop history, halve the knowledge section) would bring the
context to 2723 ≤ 3000 characters, yet `build_smart_context` returns a
3115-character context: the cascade's `replace` searches for the RAW
knowledge input, which (because of the stripped leading tab) occurs
nowhere in the assembled context, so the halving step silently does
nothing. -/
theorem C1_counterexample :
    specDropHalveLen (List.replicate 2300 'm') ('\t' :: List.replicate 790 'a') 1 [] ≤
      maxTotalChars 1 ∧
    ¬ (builtFullLen (List.replicate 2300 'm') .normal [] ('\t' :: List.replicate 790 'a') 1 [] ≤
      maxTotalChars 1) := by
  constructor
  · rw [specHalve_c1]
    decide
  · rw [builtLen_c1]
    decide

/-- C1 (amended): for every complexity and all inputs on which
`build_smart_context` returns, the returned context fits the tier budget
whenever the two cascade corrections as implemented — the line filter that
drops history, then (for nonempty raw knowledge input) replacing every
occurrence of the raw knowledge input by its first half plus ellipsis —
bring the length within the budget. -/
theorem C1_cascade_bound (user_message : List Char) (mode : ChatMode)
    (chat_history rag_context : List Char) (complexity : ℤ) (profile_context : List Char)
    (sp ctx cc : List Char)
    (hb : build_smart_context user_message mode chat_history rag_context complexity
      profile_context = some (sp, ctx))
    (hc : cascadedContext user_message chat_history rag_context complexity
      profile_context = some cc)
    (hlen : cc.length ≤ maxTotalChars complexity) :
    ctx.length ≤ maxTotalChars complexity := by
  unfold build_smart_context at hb
  by_cases h1 : (fullContextNaive user_message chat_history rag_context complexity
      profile_context).length > maxTotalChars complexity
  · rw [if_pos h1] at hb
    unfold cascadedContext at hc
    cases hd : droppedContext user_message chat_history rag_context complexity
        profile_context with
    | none =>
      rw [hd] at hb
      exact absurd hb (by simp)
    | some f1 =>
      rw [hd] at hb hc
      simp only [Option.map_some', Option.some.injEq] at hb hc
      have hctx : ctx = (if f1.length > maxTotalChars complexity ∧ rag_context ≠ [] then
          pyReplace rag_context (shortenedRag rag_context) f1 else f1) :=
        ((Prod.mk.injEq _ _ _ _).mp hb).2.symm
      by_cases h2 : f1.length > maxTotalChars complexity
      · by_cases h3 : rag_context ≠ []
        · rw [hctx, if_pos ⟨h2, h3⟩]
          rw [← hc, if_pos h3] at hlen
          exact hlen
        · rw [hctx, if_neg (by tauto)]
          rw [← hc, if_neg h3] at hlen
          exact hlen
      · rw [hctx, if_neg (by tauto)]
        exact le_of_not_lt h2
  · rw [if_neg h1] at hb
    simp only [Option.some.injEq] at hb
    have hctx : ctx = fullContextNaive user_message chat_history rag_context complexity
        profile_context := ((Prod.mk.injEq _ _ _ _).mp hb).2.symm
    rw [hctx]
    exact le_of_not_lt h1

/-- C1 witness: a small in-budget call, with all three hypotheses
discharged concretely. -/
theorem C1_cascade_bound_witness :
    build_smart_context "hi".toList .normal [] [] 5 [] = some ([], "Soru:\nhi".toList) ∧
    cascadedContext "hi".toList [] [] 5 [] = some "Soru:\nhi".toList ∧
    "Soru:\nhi".toList.length ≤ maxTotalChars 5 :=
  ⟨by decide, by decide,
    C1_cascade_bound "hi".toList .normal [] [] 5 [] [] "Soru:\nhi".toList "Soru:\nhi".toList
      (by decide) (by decide) (by decide)⟩

/-- C4 (code bug): with a whitespace-only (hence truthy) `chat_history`
and an over-budget context, the cascade's history-drop step reads the
local `history_text`, which the skipped history section never assigned:
the call raises instead of returning a pair.  Modelled as `none`. -/
theorem C4_whitespace_history_crash :
    build_smart_context (List.replicate 3000 'm') .normal [' '] [] 1 [] = none := by
  have hfull : fullContextNaive (List.replicate 3000 'm') [' '] [] 1 [] =
      soruHeading ++ '\n' :: List.replicate 3000 'm' := by
    unfold fullContextNaive contextParts
    rw [pyStrip_replicate 'm' 3000 (by decide)]
    rfl
  have hlen : (fullContextNaive (List.replicate 3000 'm') [' '] [] 1 []).length = 3006 := by
    rw [hfull]
    simp only [List.length_append, List.length_cons, List.length_replicate, soru_len]
  unfold build_smart_context
  rw [if_pos (by rw [hlen]; decide)]
  rw [show droppedContext (List.replicate 3000 'm') [' '] [] 1 [] = none from rfl]
  rfl

/-- C6 counterexample: a 4002-character history whose last character is a
space.  The code strips first and then keeps the last 4000 characters of
the STRIPPED history, so the rendered section is not the ellipsis marker
plus the last 4000 characters of the input. -/
theorem C6_counterexample :
    4000 < (List.replicate 4001 'a' ++ [' ']).length ∧
    historyText (List.replicate 4001 'a' ++ [' ']) ≠
      some ("...\n\n".toList ++ lastN 4000 (List.replicate 4001 'a' ++ [' '])) := by
  constructor
  · rw [List.length_append, List.length_replicate]
    norm_num
  · have hstrip : pyStrip (List.replicate 4001 'a' ++ [' ']) = List.replicate 4001 'a' :=
      pyStrip_replicate_append_space 4000
    have h4 : 4000 < (pyStrip (List.replicate 4001 'a' ++ [' '])).length := by
      rw [hstrip, List.length_replicate]
      norm_num
    have hval : historyText (List.replicate 4001 'a' ++ [' ']) =
        some ("...\n\n".toList ++ List.replicate 4000 'a') := by
      rw [historyText_long _ h4, hstrip]
      have : lastN 4000 (List.replicate 4001 'a') = List.replicate 4000 'a' := by
        unfold lastN
        rw [List.length_replicate, List.drop_replicate]
      rw [this]
    rw [hval]
    intro heq
    have h1 := (Option.some.injEq _ _).mp heq
    have h2 := List.append_cancel_left h1
    have h3 : lastN 4000 (List.replicate 4001 'a' ++ [' ']) =
        List.replicate 3999 'a' ++ [' '] := by
      unfold lastN
      rw [List.length_append, List.length_replicate]
      rw [show (4001 + ([' '] : List Char).length - 4000) = 2 from by simp]
      rw [List.drop_append_eq_append_drop, List.drop_replicate, List.length_replicate]
      norm_num
    rw [h3] at h2
    have hcount := congrArg (List.count ' ') h2
    rw [List.count_append, List.count_replicate, List.count_replicate] at hcount
    simp at hcount

/-- C6 (amended): whenever the STRIPPED history exceeds 4000 characters,
the rendered history section is the `"...\n\n"` marker followed by
exactly the last 4000 characters of the stripped history. -/
theorem C6_suffix_truncation (chat_history : List Char)
    (h : 4000 < (pyStrip chat_history).length) :
    historyText chat_history =
      some ("...\n\n".toList ++ lastN 4000 (pyStrip chat_history)) :=
  historyText_long chat_history h

/-- C6 witness: a 4001-character history of `b`s. -/
theorem C6_suffix_truncation_witness :
    4000 < (pyStrip (List.replicate 4001 'b')).length ∧
    historyText (List.replicate 4001 'b') =
      some ("...\n\n".toList ++ lastN 4000 (pyStrip (List.replicate 4001 'b'))) := by
  have hw : 4000 < (pyStrip (List.replicate 4001 'b')).length := by
    rw [pyStrip_replicate 'b' 4001 (by decide), List.length_replicate]
    norm_num
  exact ⟨hw, C6_suffix_truncation _ hw⟩

/-- C7: the complexity tiers are exactly (≤3 ↦ 800/3000), (4–6 ↦
1500/5000), (7–8 ↦ 2500/8000), (≥9 ↦ 3500/12000); integers below 1 fall
in the low tier and integers above 10 in the very-high tier. -/
theorem C7_tiers (c : ℤ) :
    (c ≤ 3 → maxRagChars c = 800 ∧ maxTotalChars c = 3000) ∧
    (4 ≤ c ∧ c ≤ 6 → maxRagChars c = 1500 ∧ maxTotalChars c = 5000) ∧
    (7 ≤ c ∧ c ≤ 8 → maxRagChars c = 2500 ∧ maxTotalChars c = 8000) ∧
    (9 ≤ c → maxRagChars c = 3500 ∧ maxTotalChars c = 12000) := by
  unfold maxRagChars maxTotalChars
  refine ⟨?_, ?_, ?_, ?_⟩ <;> intro h <;> constructor <;> split_ifs <;> omega

/-- C7 witness: the out-of-range complexities 0 and 11 get the extreme
tiers. -/
theorem C7_tiers_witness :
    (maxRagChars 0 = 800 ∧ maxTotalChars 0 = 3000) ∧
    (maxRagChars 11 = 3500 ∧ maxTotalChars 11 = 12000) :=
  ⟨(C7_tiers 0).1 (by decide), (C7_tiers 11).2.2.2 (by decide)⟩

